import Mathlib

/-!
Verification of the Wheelly asynchronous scheduling primitives
(src/Arduino/Wheelly/Timer.h and src/Arduino/Wheelly/SR04.h).

The repository ships only the two header files: the inline member
functions (Timer::interval, Timer::continuous, Timer::isRunning,
Timer::next, SR04::operator!) are embedded directly from their source
text; every member whose body is absent from the headers (Timer::start,
Timer::stop, Timer::polling, the whole SR04 implementation) is modelled
from the specification, as marked on each definition.

Machine integers: `unsigned long` is 32-bit on the AVR Arduino targets,
so clock and deadline arithmetic is carried out over `Nat` with an
explicit reduction modulo `2 ^ 32` wherever the C++ code could wrap.
-/

/-- Modulus of the 32-bit `unsigned long` used for clocks and intervals. -/
def ULONG_MOD : Nat := 2 ^ 32

/-- State of the `Timer` class (fields of Timer.h lines 62-69).  The raw
callback pointer `_onNext`/`_context` pair is abstracted to the flag
`_hasOnNext` recording whether a callback is registered, which is all the
observable behaviour depends on. -/
structure Timer where
  _continuous : Bool
  _interval : Nat
  _hasOnNext : Bool
  _next : Nat
  _counter : Nat
  _running : Bool
deriving Repr, DecidableEq

/-- Zero-initialised timer: an Arduino `Timer` instance has static storage
duration, so every member starts zeroed before `begin`/`start` run. -/
def Timer.init : Timer := ⟨false, 0, false, 0, 0, false⟩

/-- Timer.h lines 17-20: the `interval(unsigned long)` setter stores the
interval and returns self. -/
def Timer.interval_set (t : Timer) (i : Nat) : Timer :=
  { t with _interval := i }

/-- Timer.h lines 23-26: the `continuous(boolean)` setter. -/
def Timer.continuous_set (t : Timer) (c : Bool) : Timer :=
  { t with _continuous := c }

/-- Timer.h lines 42-44: `isRunning()` observer. -/
def Timer.isRunning (t : Timer) : Bool := t._running

/-- Timer.h lines 47-49: the `interval()` observer. -/
def Timer.interval_get (t : Timer) : Nat := t._interval

/-- Timer.h lines 57-59: `next()` observer returning the deadline. -/
def Timer.next (t : Timer) : Nat := t._next

/-- Modelled from the spec: body of `Timer::onNext` is absent from src.
Registers the single active callback, replacing any previous one. -/
def Timer.onNext (t : Timer) : Timer :=
  { t with _hasOnNext := true }

/-- Modelled from the spec: body of `Timer::start()` is absent from src.
Reads the current clock (passed explicitly here), sets
`deadline = now + interval` (32-bit wrap), sets `running`, resets the
firing counter, returns self. -/
def Timer.start (t : Timer) (now : Nat) : Timer :=
  { t with
      _next := (now + t._interval) % ULONG_MOD
      _counter := 0
      _running := true }

/-- Modelled from the spec: body of `Timer::stop()` is absent from src.
Sets `running = false`. -/
def Timer.stop (t : Timer) : Timer :=
  { t with _running := false }

/-- Modelled from the spec: body of `Timer::polling(unsigned long)` is
absent from src.  If not running, or the clock has not reached the
deadline, no-op; otherwise increment the firing counter, invoke the
callback if registered, and either rearm (`deadline = clockTime +
interval`) when continuous or stop.  Returns the new state together with
whether the registered callback was invoked during this call. -/
def Timer.polling (t : Timer) (clockTime : Nat) : Timer × Bool :=
  if t._running && decide (t._next ≤ clockTime) then
    let counter1 := (t._counter + 1) % ULONG_MOD
    if t._continuous then
      ({ t with
          _counter := counter1
          _next := (clockTime + t._interval) % ULONG_MOD }, t._hasOnNext)
    else
      ({ t with _counter := counter1, _running := false }, t._hasOnNext)
  else
    (t, false)

/-- Repeated polling at a list of clock values; returns the final state
and the number of callback invocations over the whole sequence. -/
def Timer.pollSeq (t : Timer) (cs : List Nat) : Timer × Nat :=
  match cs with
  | [] => (t, 0)
  | c :: rest =>
    let r := t.polling c
    let r2 := r.1.pollSeq rest
    (r2.1, (if r.2 then 1 else 0) + r2.2)

/-- An echo measurement as reported by the external pin driver: the pulse
width in microseconds together with whether it lies inside the sensor
valid range (out-of-range / timeout results are marked invalid by the
driver). -/
abbrev Sample := Nat × Bool

/-- State of the `SR04` class (fields of SR04.h lines 38-48).  As for
`Timer`, the raw `_onSample`/`_context` callback pair is abstracted to
the flag `_hasOnSample`. -/
structure SR04 where
  _inactivity : Nat
  _triggerPin : Int
  _echoPin : Int
  _noSamples : Nat
  _hasOnSample : Bool
  _sampling : Bool
  _noMeasures : Nat
  _noValidSamples : Nat
  _totalDuration : Nat
  _timer : Timer
deriving Repr, DecidableEq

/-- SR04.h line 30, embedded verbatim:
`bool operator!() const {return _sampling;}`. -/
def SR04.operatorNot (s : SR04) : Bool := s._sampling

/-- Modelled from the spec: the `SR04(triggerPin, echoPin)` constructor
and `begin()` are absent from src.  Binds the pin identifiers and leaves
all counters zeroed; does not start sampling. -/
def SR04.begin (triggerPin echoPin : Int) : SR04 :=
  ⟨0, triggerPin, echoPin, 0, false, false, 0, 0, 0, Timer.init⟩

/-- Modelled from the spec: body of `SR04::inactivity` is absent from
src.  Configuration setter for the inter-burst interval. -/
def SR04.inactivity_set (s : SR04) (interval : Nat) : SR04 :=
  { s with _inactivity := interval }

/-- Modelled from the spec: body of `SR04::noSamples` is absent from
src.  Configuration setter for the number of samples per burst. -/
def SR04.noSamples_set (s : SR04) (n : Nat) : SR04 :=
  { s with _noSamples := n }

/-- Modelled from the spec: body of `SR04::onSample` is absent from src.
Registers the single result callback. -/
def SR04.onSample (s : SR04) : SR04 :=
  { s with _hasOnSample := true }

/-- Modelled from the spec: body of `SR04::start` is absent from src.
Sends the first trigger pulse (the returned `Nat` counts pulse-send
operations), sets `sampling`, resets the burst counters, and arms the
inner timer with the inactivity interval in continuous mode. -/
def SR04.start (s : SR04) (now : Nat) : SR04 × Nat :=
  ({ s with
      _sampling := true
      _noMeasures := 0
      _noValidSamples := 0
      _totalDuration := 0
      _timer := ((s._timer.interval_set s._inactivity).continuous_set true).start now },
    1)

/-- Modelled from the spec: body of `SR04::stop` is absent from src.
Clears `sampling` and stops the inner timer; a partially accumulated
burst is discarded. -/
def SR04.stop (s : SR04) : SR04 :=
  { s with _sampling := false, _timer := s._timer.stop }

/-- Modelled from the spec: the completed-echo bookkeeping of
`SR04::polling`/`SR04::_measure` (absent from src).  Arguments are the
measured pulse width and the driver validity verdict.  Increments
`_noMeasures`; a valid width also bumps `_noValidSamples` and is added to
`_totalDuration`.  While the burst is not complete the next pulse is sent
(second component counts pulse sends); on the last measure the burst is
finalized: the average duration is converted with the fixed propagation
constant (`duration / 58` for centimetres), the sample event is emitted
when at least one valid sample exists and a callback is registered, and
the counters are reset. -/
def SR04.measure (s : SR04) (width : Nat) (valid : Bool) : SR04 × Nat × Option ℚ :=
  if s._sampling then
    let m := s._noMeasures + 1
    let v := if valid then s._noValidSamples + 1 else s._noValidSamples
    let d := if valid then s._totalDuration + width else s._totalDuration
    if m < s._noSamples then
      ({ s with _noMeasures := m, _noValidSamples := v, _totalDuration := d }, 1, none)
    else
      ({ s with _noMeasures := 0, _noValidSamples := 0, _totalDuration := 0 },
        0,
        if 0 < v && s._hasOnSample then some ((d : ℚ) / (v : ℚ) / 58) else none)
  else
    (s, 0, none)

/-- Processes a list of completed echo measurements in order; returns the
final state, the total number of pulse-send operations, and the list of
emitted distance events. -/
def SR04.measureSeq (s : SR04) (xs : List Sample) : SR04 × Nat × List ℚ :=
  match xs with
  | [] => (s, 0, [])
  | (w, b) :: rest =>
    let r := s.measure w b
    let r2 := r.1.measureSeq rest
    (r2.1, r.2.1 + r2.2.1, r.2.2.toList ++ r2.2.2)

/-- Modelled from the spec: body of `SR04::polling` is absent from src.
One host-loop iteration: polls the inner timer (a timer firing triggers a
pulse send), then, when the driver reports a completed echo, performs the
measurement bookkeeping. -/
def SR04.polling (s : SR04) (clockTime : Nat) (echo : Option Sample) :
    SR04 × Nat × Option ℚ :=
  let tp := s._timer.polling clockTime
  let s1 : SR04 := { s with _timer := tp.1 }
  let sends0 := if tp.2 then 1 else 0
  match echo with
  | none => (s1, sends0, none)
  | some (w, b) =>
    let r := s1.measure w b
    (r.1, sends0 + r.2.1, r.2.2)

/-- Number of driver-valid measurements in a list of samples. -/
def countValid (xs : List Sample) : Nat :=
  (xs.filter (fun x => x.2)).length

/-- Sum of the widths of the driver-valid measurements. -/
def sumValid (xs : List Sample) : Nat :=
  ((xs.filter (fun x => x.2)).map (fun x => x.1)).sum

/-- The burst-counter invariant stated by the spec: pulses sent so far
never exceed the configured samples per burst, and valid samples never
exceed the pulses sent. -/
abbrev SR04.Inv (s : SR04) : Prop :=
  s._noMeasures ≤ s._noSamples ∧ s._noValidSamples ≤ s._noMeasures

lemma Timer.polling_not_running (t : Timer) (c : Nat) (h : t._running = false) :
    t.polling c = (t, false) := by
  simp [Timer.polling, h]

lemma Timer.stop_running (t : Timer) : (t.stop)._running = false := rfl

lemma countValid_cons (w : Nat) (b : Bool) (rest : List Sample) :
    countValid ((w, b) :: rest) = (if b then 1 else 0) + countValid rest := by
  cases b
  · simp [countValid]
  · simp [countValid]
    omega

lemma sumValid_cons (w : Nat) (b : Bool) (rest : List Sample) :
    sumValid ((w, b) :: rest) = (if b then w else 0) + sumValid rest := by
  cases b
  · simp [sumValid]
  · simp [sumValid]

lemma SR04.measureSeq_burst (xs : List Sample) : ∀ s : SR04,
    s._sampling = true →
    s._noMeasures + xs.length = s._noSamples → xs ≠ [] →
    s.measureSeq xs =
      ({ s with _noMeasures := 0, _noValidSamples := 0, _totalDuration := 0 },
        xs.length - 1,
        if 0 < s._noValidSamples + countValid xs ∧ s._hasOnSample = true then
          [((s._totalDuration + sumValid xs : Nat) : ℚ) /
            ((s._noValidSamples + countValid xs : Nat) : ℚ) / 58]
        else []) := by
  induction xs with
  | nil =>
    intro s _ _ hne
    exact absurd rfl hne
  | cons x rest ih =>
    obtain ⟨w, b⟩ := x
    intro s hs hlen _
    by_cases hrest : rest = []
    · subst hrest
      have hm : ¬ (s._noMeasures + 1 < s._noSamples) := by
        simp at hlen
        omega
      cases b
      · by_cases hOS : s._hasOnSample = true <;>
          by_cases hv : 0 < s._noValidSamples <;>
          simp [SR04.measureSeq, SR04.measure, hs, hm, hOS, hv,
            countValid, sumValid]
      · by_cases hOS : s._hasOnSample = true <;>
          simp [SR04.measureSeq, SR04.measure, hs, hm, hOS,
            countValid, sumValid]
    · have hrl : 0 < rest.length := List.length_pos.mpr hrest
      have hm : s._noMeasures + 1 < s._noSamples := by
        simp at hlen
        omega
      cases b
      · have ihs := ih { s with _noMeasures := s._noMeasures + 1 } hs
          (by simp at hlen ⊢; omega) hrest
        simp only [SR04.measureSeq, SR04.measure, hs, if_pos hm, if_true,
          Bool.false_eq_true, if_false, ↓reduceIte] at ihs ⊢
        simp only [ihs]
        simp [countValid_cons, sumValid_cons, Prod.ext_iff]
        omega
      · have ihs := ih
          { s with
              _noMeasures := s._noMeasures + 1
              _noValidSamples := s._noValidSamples + 1
              _totalDuration := s._totalDuration + w } hs
          (by simp at hlen ⊢; omega) hrest
        simp only [SR04.measureSeq, SR04.measure, hs, if_pos hm, if_true,
          ↓reduceIte] at ihs ⊢
        simp only [ihs]
        have e1 : s._noValidSamples + countValid ((w, true) :: rest) =
            s._noValidSamples + 1 + countValid rest := by
          simp [countValid_cons]
          omega
        have e2 : s._totalDuration + sumValid ((w, true) :: rest) =
            s._totalDuration + w + sumValid rest := by
          simp [sumValid_cons]
          omega
        rw [e1, e2]
        simp [Prod.ext_iff]
        omega

lemma SR04.Inv_measure (s : SR04) (w : Nat) (b : Bool) (h : SR04.Inv s) :
    SR04.Inv (s.measure w b).1 := by
  obtain ⟨h1, h2⟩ := h
  by_cases hsv : s._sampling = true
  · by_cases hm : s._noMeasures + 1 < s._noSamples
    · cases b
      · refine ⟨?_, ?_⟩ <;> simp [SR04.measure, hsv, hm] <;> omega
      · refine ⟨?_, ?_⟩ <;> simp [SR04.measure, hsv, hm] <;> omega
    · cases b
      · refine ⟨?_, ?_⟩ <;> simp [SR04.measure, hsv, hm]
      · refine ⟨?_, ?_⟩ <;> simp [SR04.measure, hsv, hm]
  · have hsv2 : s._sampling = false := by
      revert hsv
      cases s._sampling <;> simp
    refine ⟨?_, ?_⟩ <;> simp [SR04.measure, hsv2] <;> omega

/-- C9: `stop()` is idempotent: a second `stop()` changes nothing. -/
theorem stop_idempotent (t : Timer) : t.stop.stop = t.stop := rfl

/-- C10: after setting the interval to `d`, the `interval()` observer
returns exactly `d`; the observer is a pure projection of the state, so it
mutates nothing. -/
theorem interval_roundtrip (t : Timer) (d : Nat) :
    (t.interval_set d).interval_get = d := rfl

/-- C7: once `stop()` has been called, polling at any sequence of clock
values (monotonic or not) never invokes the callback and leaves the
stopped state untouched, until a new `start()`. -/
theorem stopped_never_fires (t : Timer) (cs : List Nat) :
    t.stop.pollSeq cs = (t.stop, 0) := by
  have key : ∀ cs : List Nat, ∀ u : Timer, u._running = false →
      u.pollSeq cs = (u, 0) := by
    intro cs
    induction cs with
    | nil => intro u _; rfl
    | cons c rest ih =>
      intro u hu
      simp [Timer.pollSeq, Timer.polling_not_running u c hu, ih u hu]
  exact key cs t.stop (Timer.stop_running t)

/-- C6: `start()` reads the clock, sets the deadline to `now + interval`,
sets running, resets the firing counter to 0, and returns the same timer
(all configuration fields preserved) for chaining. -/
theorem start_contract (t : Timer) (now : Nat)
    (hw : now + t._interval < ULONG_MOD) :
    (t.start now).next = now + t.interval_get ∧
    (t.start now).isRunning = true ∧
    (t.start now)._counter = 0 ∧
    (t.start now)._interval = t._interval ∧
    (t.start now)._continuous = t._continuous ∧
    (t.start now)._hasOnNext = t._hasOnNext := by
  refine ⟨?_, rfl, rfl, rfl, rfl, rfl⟩
  simp [Timer.start, Timer.next, Timer.interval_get, Nat.mod_eq_of_lt hw]

/-- Witness for `start_contract` at a concrete timer and clock. -/
theorem start_contract_witness :
    1000 + (Timer.init.interval_set 50)._interval < ULONG_MOD ∧
    (((Timer.init.interval_set 50).start 1000).next =
      1000 + (Timer.init.interval_set 50).interval_get ∧
    ((Timer.init.interval_set 50).start 1000).isRunning = true ∧
    ((Timer.init.interval_set 50).start 1000)._counter = 0 ∧
    ((Timer.init.interval_set 50).start 1000)._interval =
      (Timer.init.interval_set 50)._interval ∧
    ((Timer.init.interval_set 50).start 1000)._continuous =
      (Timer.init.interval_set 50)._continuous ∧
    ((Timer.init.interval_set 50).start 1000)._hasOnNext =
      (Timer.init.interval_set 50)._hasOnNext) :=
  ⟨by decide, start_contract (Timer.init.interval_set 50) 1000 (by decide)⟩

/-- C4: when a poll fires the timer: a non-continuous timer stops; a
continuous timer keeps running with its deadline recomputed as
`clockTime + interval`, which equals the old deadline advanced by exactly
one interval when the poll happens exactly at the deadline. -/
theorem fired_rearm_contract (t : Timer) (c : Nat)
    (hr : t._running = true) (hd : t._next ≤ c) :
    (t._continuous = false → (t.polling c).1.isRunning = false) ∧
    (t._continuous = true → (t.polling c).1.isRunning = true ∧
      (t.polling c).1.next = (c + t._interval) % ULONG_MOD) ∧
    (t._continuous = true → c = t._next →
      t._next + t._interval < ULONG_MOD →
      (t.polling c).1.next = t.next + t.interval_get) := by
  refine ⟨?_, ?_, ?_⟩
  · intro hcont
    simp [Timer.polling, hr, hd, hcont, Timer.isRunning]
  · intro hcont
    simp [Timer.polling, hr, hd, hcont, Timer.isRunning, Timer.next]
  · intro hcont hc hw
    simp [Timer.polling, hr, hd, hcont, Timer.next, Timer.interval_get, hc,
      Nat.mod_eq_of_lt hw]

/-- Witness for `fired_rearm_contract`: continuous timer, interval 50,
deadline 1050, polled exactly at 1050. -/
theorem fired_rearm_contract_witness :
    (⟨true, 50, true, 1050, 0, true⟩ : Timer)._running = true ∧
    (⟨true, 50, true, 1050, 0, true⟩ : Timer)._next ≤ 1050 ∧
    (((⟨true, 50, true, 1050, 0, true⟩ : Timer)._continuous = false →
      ((⟨true, 50, true, 1050, 0, true⟩ : Timer).polling 1050).1.isRunning = false) ∧
    ((⟨true, 50, true, 1050, 0, true⟩ : Timer)._continuous = true →
      ((⟨true, 50, true, 1050, 0, true⟩ : Timer).polling 1050).1.isRunning = true ∧
      ((⟨true, 50, true, 1050, 0, true⟩ : Timer).polling 1050).1.next =
        (1050 + (⟨true, 50, true, 1050, 0, true⟩ : Timer)._interval) % ULONG_MOD) ∧
    ((⟨true, 50, true, 1050, 0, true⟩ : Timer)._continuous = true →
      1050 = (⟨true, 50, true, 1050, 0, true⟩ : Timer)._next →
      (⟨true, 50, true, 1050, 0, true⟩ : Timer)._next +
        (⟨true, 50, true, 1050, 0, true⟩ : Timer)._interval < ULONG_MOD →
      ((⟨true, 50, true, 1050, 0, true⟩ : Timer).polling 1050).1.next =
        (⟨true, 50, true, 1050, 0, true⟩ : Timer).next +
        (⟨true, 50, true, 1050, 0, true⟩ : Timer).interval_get)) :=
  ⟨rfl, by decide,
    fired_rearm_contract (⟨true, 50, true, 1050, 0, true⟩ : Timer) 1050 rfl (by decide)⟩

/-- C3: a timer started at `t0` with a registered callback does not fire
at `t0 + interval - 1`, fires exactly once at `t0 + interval`, and once
that deadline is consumed a repeated or non-monotonic clock value at or
below `t0 + interval` never fires it again. -/
theorem deadline_fire_once (t : Timer) (t0 : Nat)
    (hcb : t._hasOnNext = true) (hi : 1 ≤ t._interval)
    (hw : t0 + t._interval + t._interval < ULONG_MOD) :
    ((t.start t0).polling (t0 + t._interval - 1)).2 = false ∧
    ((t.start t0).polling (t0 + t._interval)).2 = true ∧
    ∀ c ≤ t0 + t._interval,
      (((t.start t0).polling (t0 + t._interval)).1.polling c).2 = false := by
  have hm1 : (t0 + t._interval) % ULONG_MOD = t0 + t._interval :=
    Nat.mod_eq_of_lt (by omega)
  refine ⟨?_, ?_, ?_⟩
  · have hlt : ¬ (t0 + t._interval ≤ t0 + t._interval - 1) := by omega
    simp [Timer.start, Timer.polling, hm1, hlt]
  · cases hcont : t._continuous <;>
      simp [Timer.start, Timer.polling, hm1, hcb, hcont]
  · intro c hc
    cases hcont : t._continuous with
    | false =>
      have h1 : ((t.start t0).polling (t0 + t._interval)).1._running = false := by
        simp [Timer.start, Timer.polling, hm1, hcont]
      simp [Timer.polling_not_running _ c h1]
    | true =>
      have hm2 : (t0 + t._interval + t._interval) % ULONG_MOD =
          t0 + t._interval + t._interval := Nat.mod_eq_of_lt hw
      have hlt : ¬ (t0 + t._interval + t._interval ≤ c) := by omega
      simp [Timer.start, Timer.polling, hm1, hcont, hm2, hlt]

/-- Witness for `deadline_fire_once`: continuous timer with interval 50
and a registered callback, started at 1000; checked at clocks 1049, 1050
and a repeat of 1050. -/
theorem deadline_fire_once_witness :
    (⟨true, 50, true, 0, 0, false⟩ : Timer)._hasOnNext = true ∧
    1 ≤ (⟨true, 50, true, 0, 0, false⟩ : Timer)._interval ∧
    1000 + (⟨true, 50, true, 0, 0, false⟩ : Timer)._interval +
      (⟨true, 50, true, 0, 0, false⟩ : Timer)._interval < ULONG_MOD ∧
    (((⟨true, 50, true, 0, 0, false⟩ : Timer).start 1000).polling 1049).2 = false ∧
    (((⟨true, 50, true, 0, 0, false⟩ : Timer).start 1000).polling 1050).2 = true ∧
    ((((⟨true, 50, true, 0, 0, false⟩ : Timer).start 1000).polling 1050).1.polling
      1050).2 = false := by
  have h := deadline_fire_once (⟨true, 50, true, 0, 0, false⟩ : Timer) 1000
    rfl (by decide) (by decide)
  exact ⟨rfl, by decide, by decide, h.1, h.2.1, h.2.2 1050 (by decide)⟩

/-- C5: the burst-counter invariant holds in every reachable state — it
is established by `begin` and by `start` and preserved by `stop`, by each
echo measurement and by `polling` — and a burst configured for `N`
samples performs exactly `N` pulse-send operations between its start and
its finalization, for any mix of valid and invalid echoes. -/
theorem burst_invariant_pulse_count :
    (∀ a b : Int, SR04.Inv (SR04.begin a b)) ∧
    (∀ (s : SR04) (now : Nat), SR04.Inv (s.start now).1) ∧
    (∀ s : SR04, SR04.Inv s → SR04.Inv s.stop) ∧
    (∀ (s : SR04) (w : Nat) (b : Bool), SR04.Inv s → SR04.Inv (s.measure w b).1) ∧
    (∀ (s : SR04) (c : Nat) (e : Option Sample), SR04.Inv s →
      SR04.Inv (s.polling c e).1) ∧
    (∀ (s : SR04) (xs : List Sample) (now : Nat),
      xs.length = s._noSamples → 0 < xs.length →
      (s.start now).2 + ((s.start now).1.measureSeq xs).2.1 = xs.length) := by
  refine ⟨?_, ?_, ?_, SR04.Inv_measure, ?_, ?_⟩
  · intro a b
    exact ⟨Nat.le_refl 0, Nat.le_refl 0⟩
  · intro s now
    exact ⟨Nat.zero_le _, Nat.le_refl 0⟩
  · intro s h
    exact h
  · intro s c e h
    cases e with
    | none => exact h
    | some x =>
      obtain ⟨w, b⟩ := x
      exact SR04.Inv_measure _ w b h
  · intro s xs now hlen hpos
    have hne : xs ≠ [] := List.ne_nil_of_length_pos hpos
    have hb := SR04.measureSeq_burst xs (s.start now).1 rfl
      (by simpa [SR04.start] using hlen) hne
    rw [hb]
    simp [SR04.start]
    omega

/-- Witness for `burst_invariant_pulse_count` at concrete states: a
configured controller, one measurement step on it, and a full burst of
two samples (one valid, one invalid) performing exactly two sends. -/
theorem burst_invariant_pulse_count_witness :
    SR04.Inv ((SR04.begin 3 4).noSamples_set 2) ∧
    SR04.Inv (((SR04.begin 3 4).noSamples_set 2).measure 100 true).1 ∧
    ((((SR04.begin 3 4).noSamples_set 2).start 5).2 +
      ((((SR04.begin 3 4).noSamples_set 2).start 5).1.measureSeq
        [(100, true), (300, false)]).2.1 = 2) :=
  ⟨⟨by decide, by decide⟩,
    burst_invariant_pulse_count.2.2.2.1 _ 100 true ⟨by decide, by decide⟩,
    burst_invariant_pulse_count.2.2.2.2.2 _ [(100, true), (300, false)] 5 rfl
      (by decide)⟩

/-- C2: on a completed burst with at least one valid sample, the distance
handed to the sample callback is the accumulated duration divided by the
number of valid samples, converted by the fixed propagation constant
(duration/58 for centimetres); in the documented scenario with three
samples of widths 200, 9999 (invalid) and 250 microseconds, the two valid
samples average (200+250)/2 = 225 and the reported distance 225/58 is
within 0.01 of 3.88 cm. -/
theorem reported_distance (s : SR04) (xs : List Sample)
    (hs : s._sampling = true) (hcb : s._hasOnSample = true)
    (hm0 : s._noMeasures = 0) (hv0 : s._noValidSamples = 0)
    (hd0 : s._totalDuration = 0) (hlen : xs.length = s._noSamples)
    (hvalid : 0 < countValid xs) :
    (s.measureSeq xs).2.2 =
      [((sumValid xs : Nat) : ℚ) / ((countValid xs : Nat) : ℚ) / 58] ∧
    ((((SR04.begin 1 2).noSamples_set 3).onSample.start 0).1.measureSeq
        [(200, true), (9999, false), (250, true)]).2.2 = [(225 : ℚ) / 58] ∧
    ((200 : ℚ) + 250) / 2 = 225 ∧
    |(225 : ℚ) / 58 - 388 / 100| < 1 / 100 := by
  have hne : xs ≠ [] := by
    intro h
    subst h
    simp [countValid] at hvalid
  refine ⟨?_, ?_, by norm_num, ?_⟩
  · rw [SR04.measureSeq_burst xs s hs (by omega) hne]
    simp [hv0, hd0, hcb, hvalid]
  · norm_num [SR04.measureSeq, SR04.measure, SR04.start, SR04.begin,
      SR04.noSamples_set, SR04.onSample]
  · rw [abs_lt]
    refine ⟨by norm_num, by norm_num⟩

/-- Witness for `reported_distance`: a started controller configured for
three samples per burst, fed the documented echo widths. -/
theorem reported_distance_witness :
    0 < countValid [((200 : Nat), true), (9999, false), (250, true)] ∧
    ((((SR04.begin 1 2).noSamples_set 3).onSample.start 0).1.measureSeq
        [(200, true), (9999, false), (250, true)]).2.2 =
      [((sumValid [((200 : Nat), true), (9999, false), (250, true)] : Nat) : ℚ) /
        ((countValid [((200 : Nat), true), (9999, false), (250, true)] : Nat) : ℚ) /
        58] :=
  ⟨by decide,
    (reported_distance (((SR04.begin 1 2).noSamples_set 3).onSample.start 0).1
      [(200, true), (9999, false), (250, true)]
      rfl rfl rfl rfl rfl rfl (by decide)).1⟩

/-- C8: polling before `begin`/`start` is a no-op and never a fault: a
zero-initialised timer and a freshly bound controller are returned
unchanged, no callback fires and no pulse is sent, for every clock value
and any echo report. -/
theorem poll_before_start_noop (a b : Int) (c : Nat) (e : Option Sample) :
    Timer.init.polling c = (Timer.init, false) ∧
    (SR04.begin a b).polling c e = (SR04.begin a b, 0, none) := by
  refine ⟨rfl, ?_⟩
  cases e with
  | none => rfl
  | some x =>
    obtain ⟨w, bb⟩ := x
    rfl

/-- C1 counterexample: immediately after `start()` the controller has
`sampling == true`, yet `operator!` (SR04.h line 30) returns true as
well — not false as the claim requires, and not the negation of
`_sampling`. -/
theorem operatorNot_counterexample :
    ((SR04.begin 1 2).start 0).1._sampling = true ∧
    ¬ (((SR04.begin 1 2).start 0).1.operatorNot = false) ∧
    ¬ (((SR04.begin 1 2).start 0).1.operatorNot =
        !((SR04.begin 1 2).start 0).1._sampling) := by
  refine ⟨rfl, by decide, by decide⟩

/-- C1 amended: `operator!` returns the `_sampling` flag itself — true
exactly when `sampling == true`, matching the source comment "Returns
true if timer is sampling" — so it is true after `start()` and false
after `stop()` or before any start. -/
theorem operatorNot_amended (s : SR04) (a b : Int) (now : Nat) :
    s.operatorNot = s._sampling ∧
    ((s.start now).1).operatorNot = true ∧
    s.stop.operatorNot = false ∧
    (SR04.begin a b).operatorNot = false :=
  ⟨rfl, rfl, rfl, rfl⟩
